import Mathlib

/-!
Verification of the ZAR→USDC conversion optimizer
(`src/arc_zardian/core/optimizer.py` and `src/arc_zardian/core/models.py`).

The Python code evaluates every configured exchange client: each client
exposes `get_zar_usdc_rate()` and `calculate_fee(zar_amount)`, either of
which may raise.  A successful evaluation builds a `ConversionPath` with
`usdc_received = (zar_amount - fee) / rate`; a failing one is caught,
logged and dropped (`_evaluate_exchange` returns `None`).  The surviving
paths are sorted by `usdc_received` descending with Python's stable
`list.sort`, and the head becomes `optimal_path` with the tail as
`alternative_paths`; if no path survives, `ValueError("No valid
conversion paths found")` is raised.

Embedding choices:
* monetary amounts and rates are `ℚ` (the Python floats, modelled exactly);
* a client is a record whose two calls return `Except Unit ℚ`
  (`.error` models a raised exception inside the call);
* `_evaluate_exchange` returns `Option ConversionPath`; the `rate = 0`
  branch returns `none` because in Python the `ZeroDivisionError` raised
  by `(zar_amount - fee) / rate` is caught by the same per-provider
  `except Exception` handler as any other failure;
* `asyncio.gather` returns results in task-submission order (the dict's
  insertion order), so the client mapping is a `List ExchangeClientBase`
  and evaluation maps over it in order;
* Python's `list.sort(key=..., reverse=True)` is a stable descending
  sort; `sortDesc` below is a stable insertion sort for the same order
  (ties keep list order, i.e. first-registered first);
* the raised `ValueError` is the single error constructor
  `ConversionError.NoValidPathError` (the spec's name for it);
* the wall-clock timestamp is passed in as a parameter.
-/

namespace ArcZardian

/-- The `Exchange` enum of `models.py`: exactly three venues. -/
inductive Exchange
  | BINANCE
  | LUNO
  | BYBIT
deriving DecidableEq, Repr

/-- The `ConversionPath` dataclass of `models.py`. -/
structure ConversionPath where
  exchange : Exchange
  zar_amount : ℚ
  usdc_received : ℚ
  fee : ℚ
  rate : ℚ
deriving DecidableEq, Repr

/-- The `ConversionResult` dataclass of `models.py`. -/
structure ConversionResult where
  optimal_path : ConversionPath
  alternative_paths : List ConversionPath
  timestamp : ℚ
deriving DecidableEq, Repr

/-- The one error `find_best_path` can raise: the
`ValueError("No valid conversion paths found")` of `optimizer.py`,
called `NoValidPathError` by the spec. -/
inductive ConversionError
  | NoValidPathError
deriving DecidableEq, Repr

/-- An exchange client (`ExchangeClientBase` in `optimizer.py`): an
exchange identity plus the two async calls, each of which may raise
(`Except.error ()`).  `get_zar_usdc_rate` takes no argument in the
source; `calculate_fee` takes the ZAR amount. -/
structure ExchangeClientBase where
  EXCHANGE : Exchange
  get_zar_usdc_rate : Except Unit ℚ
  calculate_fee : ℚ → Except Unit ℚ

/-- `BinanceClient`: mock rate 18.5, fee 0.1 % of the amount. -/
def BinanceClient : ExchangeClientBase where
  EXCHANGE := Exchange.BINANCE
  get_zar_usdc_rate := Except.ok (18.5 : ℚ)
  calculate_fee := fun zar_amount => Except.ok (zar_amount * (0.001 : ℚ))

/-- `LunoClient`: mock rate 18.7, fee 0.5 % of the amount. -/
def LunoClient : ExchangeClientBase where
  EXCHANGE := Exchange.LUNO
  get_zar_usdc_rate := Except.ok (18.7 : ℚ)
  calculate_fee := fun zar_amount => Except.ok (zar_amount * (0.005 : ℚ))

/-- `BybitClient`: mock rate 18.6, taker fee 0.3 % of the amount. -/
def BybitClient : ExchangeClientBase where
  EXCHANGE := Exchange.BYBIT
  get_zar_usdc_rate := Except.ok (18.6 : ℚ)
  calculate_fee := fun zar_amount => Except.ok (zar_amount * (0.003 : ℚ))

/-- The default client mapping built by `ConversionOptimizer.__init__`
when `clients is None`, in dict-insertion order. -/
def default_clients : List ExchangeClientBase :=
  [BinanceClient, LunoClient, BybitClient]

/-- `ConversionOptimizer._evaluate_exchange`: query rate and fee; on
success build the path with `usdc_received = (zar_amount - fee) / rate`.
Any exception — a failing call, or the `ZeroDivisionError` when
`rate = 0` — is caught by the per-provider handler and yields `none`. -/
def evaluate_exchange (client : ExchangeClientBase) (zar_amount : ℚ) :
    Option ConversionPath :=
  match client.get_zar_usdc_rate, client.calculate_fee zar_amount with
  | Except.ok rate, Except.ok fee =>
      if rate = 0 then none
      else some { exchange := client.EXCHANGE
                  zar_amount := zar_amount
                  usdc_received := (zar_amount - fee) / rate
                  fee := fee
                  rate := rate }
  | _, _ => none

/-- The `valid_paths` list of `find_best_path`: the successful
evaluations, in client-registration order (`asyncio.gather` preserves
task order). -/
def validPaths (clients : List ExchangeClientBase) (zar_amount : ℚ) :
    List ConversionPath :=
  clients.filterMap (fun c => evaluate_exchange c zar_amount)

/-- Stable insertion for the descending order on `usdc_received`:
`x` is placed before the first element it is ≥ on, so among equal keys
an element inserted later (= registered earlier, see `sortDesc`) comes
first. -/
def insertDesc (x : ConversionPath) : List ConversionPath → List ConversionPath
  | [] => [x]
  | y :: ys =>
      if y.usdc_received ≤ x.usdc_received then x :: y :: ys
      else y :: insertDesc x ys

/-- Python's `valid_paths.sort(key=lambda x: x.usdc_received,
reverse=True)`: a stable sort, descending on `usdc_received`, ties kept
in list order. -/
def sortDesc (l : List ConversionPath) : List ConversionPath :=
  l.foldr insertDesc []

/-- `ConversionOptimizer.find_best_path`: sort the valid paths
descending; raise `NoValidPathError` when none survived (the source
checks `if not valid_paths` before sorting — equivalent, since sorting
preserves emptiness, see `sortDesc_eq_nil_iff`), otherwise return the
head as `optimal_path` and the tail as `alternative_paths`. -/
def find_best_path (clients : List ExchangeClientBase)
    (zar_amount timestamp : ℚ) : Except ConversionError ConversionResult :=
  match sortDesc (validPaths clients zar_amount) with
  | [] => Except.error ConversionError.NoValidPathError
  | p :: ps =>
      Except.ok { optimal_path := p
                  alternative_paths := ps
                  timestamp := timestamp }

/-- A path is among the valid paths exactly when some configured client
evaluates to it. -/
lemma mem_validPaths {clients : List ExchangeClientBase} {zar_amount : ℚ}
    {p : ConversionPath} :
    p ∈ validPaths clients zar_amount ↔
      ∃ c ∈ clients, evaluate_exchange c zar_amount = some p :=
  List.mem_filterMap

/-- No valid path survives exactly when every client's evaluation fails. -/
lemma validPaths_eq_nil_iff {clients : List ExchangeClientBase}
    {zar_amount : ℚ} :
    validPaths clients zar_amount = [] ↔
      ∀ c ∈ clients, evaluate_exchange c zar_amount = none :=
  List.filterMap_eq_nil_iff

/-- Inserting is a permutation of consing. -/
lemma insertDesc_perm (x : ConversionPath) (l : List ConversionPath) :
    (insertDesc x l).Perm (x :: l) := by
  induction l with
  | nil => simp [insertDesc]
  | cons y ys ih =>
      unfold insertDesc
      split
      · exact List.Perm.refl _
      · exact (ih.cons y).trans (List.Perm.swap x y ys)

/-- Sorting is a permutation. -/
lemma sortDesc_perm (l : List ConversionPath) : (sortDesc l).Perm l := by
  induction l with
  | nil => exact List.Perm.refl _
  | cons x xs ih => exact (insertDesc_perm x (sortDesc xs)).trans (ih.cons x)

/-- Inserting into a descending list keeps it descending. -/
lemma insertDesc_pairwise (x : ConversionPath) (l : List ConversionPath)
    (h : l.Pairwise (fun p q => q.usdc_received ≤ p.usdc_received)) :
    (insertDesc x l).Pairwise (fun p q => q.usdc_received ≤ p.usdc_received) := by
  induction l with
  | nil => simp [insertDesc]
  | cons y ys ih =>
      rw [List.pairwise_cons] at h
      obtain ⟨hy, hys⟩ := h
      unfold insertDesc
      split
      case isTrue hc =>
        rw [List.pairwise_cons]
        refine ⟨?_, List.pairwise_cons.mpr ⟨hy, hys⟩⟩
        intro z hz
        rcases List.mem_cons.mp hz with rfl | hz
        · exact hc
        · exact (hy z hz).trans hc
      case isFalse hc =>
        rw [List.pairwise_cons]
        refine ⟨?_, ih hys⟩
        intro z hz
        rcases List.mem_cons.mp ((insertDesc_perm x ys).mem_iff.mp hz) with rfl | hz
        · exact le_of_lt (lt_of_not_le hc)
        · exact hy z hz

/-- The sorted list is descending on `usdc_received`. -/
lemma sortDesc_pairwise (l : List ConversionPath) :
    (sortDesc l).Pairwise (fun p q => q.usdc_received ≤ p.usdc_received) := by
  induction l with
  | nil => simp [sortDesc]
  | cons x xs ih => exact insertDesc_pairwise x (sortDesc xs) ih

/-- Stability, insertion step, key of the inserted element: the element
goes in front of every element with the same key (only strictly greater
keys are skipped over). -/
lemma insertDesc_filter_eq (x : ConversionPath) (l : List ConversionPath)
    (k : ℚ) (hx : x.usdc_received = k) :
    (insertDesc x l).filter (fun p => decide (p.usdc_received = k)) =
      x :: l.filter (fun p => decide (p.usdc_received = k)) := by
  induction l with
  | nil => simp [insertDesc, hx]
  | cons y ys ih =>
      unfold insertDesc
      split
      case isTrue hc => simp [List.filter_cons, hx]
      case isFalse hc =>
        have hy : ¬ y.usdc_received = k := fun h => hc (le_of_eq (hx ▸ h))
        simp [List.filter_cons, hy, ih, hx]

/-- Stability, insertion step, other keys: insertion does not disturb
the relative order of the rest. -/
lemma insertDesc_filter_ne (x : ConversionPath) (l : List ConversionPath)
    (k : ℚ) (hx : ¬ x.usdc_received = k) :
    (insertDesc x l).filter (fun p => decide (p.usdc_received = k)) =
      l.filter (fun p => decide (p.usdc_received = k)) := by
  induction l with
  | nil => simp [insertDesc, hx]
  | cons y ys ih =>
      unfold insertDesc
      split
      case isTrue hc => simp [List.filter_cons, hx]
      case isFalse hc => simp [List.filter_cons, ih]

/-- Stability of `sortDesc`: the elements sharing any one key value keep
their original relative order, which is exactly what Python's stable
`list.sort` guarantees. -/
lemma sortDesc_filter (l : List ConversionPath) (k : ℚ) :
    (sortDesc l).filter (fun p => decide (p.usdc_received = k)) =
      l.filter (fun p => decide (p.usdc_received = k)) := by
  induction l with
  | nil => rfl
  | cons x xs ih =>
      show (insertDesc x (sortDesc xs)).filter _ = _
      by_cases hx : x.usdc_received = k
      · rw [insertDesc_filter_eq x _ k hx, ih]
        simp [List.filter_cons, hx]
      · rw [insertDesc_filter_ne x _ k hx, ih]
        simp [List.filter_cons, hx]

/-- Sorting preserves emptiness, so raising on the unsorted list (as the
source does) and on the sorted one are the same test. -/
lemma sortDesc_eq_nil_iff (l : List ConversionPath) :
    sortDesc l = [] ↔ l = [] := by
  constructor
  · intro h
    exact ((h ▸ sortDesc_perm l).symm).eq_nil
  · intro h
    subst h
    rfl

/-- Equation: inserting into the empty list. -/
lemma insertDesc_nil (x : ConversionPath) : insertDesc x [] = [x] := rfl

/-- Equation: the head is not better, so the new element goes in front. -/
lemma insertDesc_cons_le (x y : ConversionPath) (ys : List ConversionPath)
    (h : y.usdc_received ≤ x.usdc_received) :
    insertDesc x (y :: ys) = x :: y :: ys := by
  simp only [insertDesc]
  rw [if_pos h]

/-- Equation: the head is strictly better, so insertion recurses. -/
lemma insertDesc_cons_gt (x y : ConversionPath) (ys : List ConversionPath)
    (h : ¬ y.usdc_received ≤ x.usdc_received) :
    insertDesc x (y :: ys) = y :: insertDesc x ys := by
  simp only [insertDesc]
  rw [if_neg h]

/-- Success cases of `find_best_path`: the returned head and tail are
exactly the stable-descending sort of the valid paths. -/
lemma find_best_path_ok_iff {clients : List ExchangeClientBase}
    {zar_amount timestamp : ℚ} {r : ConversionResult} :
    find_best_path clients zar_amount timestamp = Except.ok r ↔
      r.optimal_path :: r.alternative_paths =
          sortDesc (validPaths clients zar_amount) ∧
        r.timestamp = timestamp := by
  cases r with
  | mk opt alts ts =>
      unfold find_best_path
      cases h : sortDesc (validPaths clients zar_amount) with
      | nil => simp
      | cons p ps =>
          simp only [Except.ok.injEq, ConversionResult.mk.injEq,
            List.cons.injEq]
          constructor
          · rintro ⟨h1, h2, h3⟩
            exact ⟨⟨h1.symm, h2.symm⟩, h3.symm⟩
          · rintro ⟨⟨h1, h2⟩, h3⟩
            exact ⟨h1.symm, h2.symm, h3.symm⟩

/-- Failure case of `find_best_path`: the error is raised exactly when
no valid path survived. -/
lemma find_best_path_error_iff {clients : List ExchangeClientBase}
    {zar_amount timestamp : ℚ} :
    find_best_path clients zar_amount timestamp =
        Except.error ConversionError.NoValidPathError ↔
      validPaths clients zar_amount = [] := by
  unfold find_best_path
  cases h : sortDesc (validPaths clients zar_amount) with
  | nil => simpa using (sortDesc_eq_nil_iff _).mp h
  | cons p ps =>
      simp only [reduceCtorEq, false_iff]
      intro hnil
      rw [hnil] at h
      exact List.cons_ne_nil p ps h.symm

/-- When some configured client evaluates successfully, `find_best_path`
returns a result, whose paths are the sorted valid paths. -/
lemma exists_ok_of_evaluate_some {clients : List ExchangeClientBase}
    {zar_amount : ℚ} (timestamp : ℚ) {c : ExchangeClientBase}
    (hc : c ∈ clients)
    (hsucc : evaluate_exchange c zar_amount ≠ none) :
    ∃ r, find_best_path clients zar_amount timestamp = Except.ok r ∧
      r.optimal_path :: r.alternative_paths =
        sortDesc (validPaths clients zar_amount) := by
  have hne : validPaths clients zar_amount ≠ [] := by
    intro hnil
    exact hsucc (validPaths_eq_nil_iff.mp hnil c hc)
  cases hs : sortDesc (validPaths clients zar_amount) with
  | nil => exact absurd ((sortDesc_eq_nil_iff _).mp hs) hne
  | cons p ps =>
      refine ⟨⟨p, ps, timestamp⟩, ?_, rfl⟩
      exact find_best_path_ok_iff.mpr ⟨hs.symm, rfl⟩

/-- A convenience client used to instantiate the universally quantified
theorems below on concrete inputs: rate 1, fee 0, always succeeding. -/
def clientA : ExchangeClientBase where
  EXCHANGE := Exchange.BINANCE
  get_zar_usdc_rate := Except.ok 1
  calculate_fee := fun _ => Except.ok 0

/-- The result `find_best_path [clientA] 5 0` computes to. -/
def resultA : ConversionResult where
  optimal_path := { exchange := Exchange.BINANCE, zar_amount := 5
                    usdc_received := 5, fee := 0, rate := 1 }
  alternative_paths := []
  timestamp := 0

/-- C1: whenever `find_best_path` returns a `ConversionResult`, the
optimal path's `usdc_received` is at least that of every alternative,
and `optimal_path :: alternative_paths` is all the successfully
evaluated paths (a permutation of `validPaths`) in descending order of
`usdc_received`, so the alternatives list every other evaluated path in
descending order. -/
theorem C1_optimal_dominates_alternatives
    (clients : List ExchangeClientBase) (zar_amount timestamp : ℚ)
    (r : ConversionResult)
    (h : find_best_path clients zar_amount timestamp = Except.ok r) :
    (∀ p ∈ r.alternative_paths,
        p.usdc_received ≤ r.optimal_path.usdc_received) ∧
      (r.optimal_path :: r.alternative_paths).Perm
          (validPaths clients zar_amount) ∧
      (r.optimal_path :: r.alternative_paths).Pairwise
          (fun p q => q.usdc_received ≤ p.usdc_received) := by
  obtain ⟨hlist, -⟩ := find_best_path_ok_iff.mp h
  have hperm : (r.optimal_path :: r.alternative_paths).Perm
      (validPaths clients zar_amount) :=
    hlist ▸ sortDesc_perm _
  have hpw : (r.optimal_path :: r.alternative_paths).Pairwise
      (fun p q => q.usdc_received ≤ p.usdc_received) :=
    hlist ▸ sortDesc_pairwise _
  exact ⟨(List.pairwise_cons.mp hpw).1, hperm, hpw⟩

/-- Witness for C1 on a concrete run: one client, rate 1, fee 0,
amount 5. -/
theorem C1_witness :
    (∀ p ∈ resultA.alternative_paths,
        p.usdc_received ≤ resultA.optimal_path.usdc_received) ∧
      (resultA.optimal_path :: resultA.alternative_paths).Perm
          (validPaths [clientA] 5) ∧
      (resultA.optimal_path :: resultA.alternative_paths).Pairwise
          (fun p q => q.usdc_received ≤ p.usdc_received) :=
  C1_optimal_dominates_alternatives [clientA] 5 0 resultA (by
    norm_num [find_best_path, validPaths, evaluate_exchange, sortDesc,
      insertDesc, clientA, resultA, List.filterMap, List.foldr])

/-- C2: `find_best_path` raises `NoValidPathError` exactly when every
configured provider's evaluation failed, and a returned result's
`optimal_path` is always one of the successfully evaluated paths (never
empty or missing). -/
theorem C2_error_iff_all_providers_failed
    (clients : List ExchangeClientBase) (zar_amount timestamp : ℚ) :
    (find_best_path clients zar_amount timestamp =
        Except.error ConversionError.NoValidPathError ↔
      ∀ c ∈ clients, evaluate_exchange c zar_amount = none) ∧
      ∀ r, find_best_path clients zar_amount timestamp = Except.ok r →
        r.optimal_path ∈ validPaths clients zar_amount := by
  constructor
  · exact find_best_path_error_iff.trans validPaths_eq_nil_iff
  · intro r h
    obtain ⟨hlist, -⟩ := find_best_path_ok_iff.mp h
    have hmem : r.optimal_path ∈ sortDesc (validPaths clients zar_amount) :=
      hlist ▸ List.mem_cons_self _ _
    exact (sortDesc_perm _).subset hmem

/-- Witness for C2 on a concrete run: a single always-failing client,
checking both directions of the iff at a real input. -/
theorem C2_witness :
    (find_best_path [⟨Exchange.LUNO, Except.error (), fun _ => Except.ok 0⟩]
          5 0 =
        Except.error ConversionError.NoValidPathError ↔
      ∀ c ∈ [(⟨Exchange.LUNO, Except.error (), fun _ => Except.ok 0⟩ :
          ExchangeClientBase)], evaluate_exchange c 5 = none) ∧
      ∀ r, find_best_path
            [⟨Exchange.LUNO, Except.error (), fun _ => Except.ok 0⟩] 5 0 =
          Except.ok r →
        r.optimal_path ∈
          validPaths [⟨Exchange.LUNO, Except.error (), fun _ => Except.ok 0⟩]
            5 :=
  C2_error_iff_all_providers_failed _ 5 0

/-- C5: a provider whose two calls return `rate > 0` and `fee` yields
the path with `usdc_received = (zar_amount - fee) / rate`, and the
stored fields satisfy the same equation. -/
theorem C5_output_amount_formula
    (client : ExchangeClientBase) (zar_amount rate fee : ℚ)
    (hr : client.get_zar_usdc_rate = Except.ok rate)
    (hf : client.calculate_fee zar_amount = Except.ok fee)
    (hpos : 0 < rate) :
    ∃ p, evaluate_exchange client zar_amount = some p ∧
      p.usdc_received = (p.zar_amount - p.fee) / p.rate ∧
      p.zar_amount = zar_amount ∧ p.fee = fee ∧ p.rate = rate ∧
      p.usdc_received = (zar_amount - fee) / rate := by
  refine ⟨{ exchange := client.EXCHANGE, zar_amount := zar_amount
            usdc_received := (zar_amount - fee) / rate
            fee := fee, rate := rate },
    ?_, rfl, rfl, rfl, rfl, rfl⟩
  unfold evaluate_exchange
  rw [hr, hf]
  exact if_neg (ne_of_gt hpos)

/-- Witness for C5: `clientA` (rate 1, fee 0) at amount 5. -/
theorem C5_witness :
    0 < (1 : ℚ) ∧
      ∃ p, evaluate_exchange clientA 5 = some p ∧
        p.usdc_received = (p.zar_amount - p.fee) / p.rate ∧
        p.zar_amount = 5 ∧ p.fee = 0 ∧ p.rate = 1 ∧
        p.usdc_received = (5 - 0) / 1 :=
  ⟨by norm_num, C5_output_amount_formula clientA 5 1 0 rfl rfl (by norm_num)⟩

/-- C7: when exactly one provider succeeds — the valid-path list is the
singleton `[p]` — that path is the optimal one and the alternatives list
is empty. -/
theorem C7_single_success_no_alternatives
    (clients : List ExchangeClientBase) (zar_amount timestamp : ℚ)
    (p : ConversionPath)
    (h : validPaths clients zar_amount = [p]) :
    find_best_path clients zar_amount timestamp =
      Except.ok ⟨p, [], timestamp⟩ := by
  apply find_best_path_ok_iff.mpr
  rw [h]
  exact ⟨rfl, rfl⟩

/-- Witness for C7: the single client `clientA` at amount 5. -/
theorem C7_witness :
    find_best_path [clientA] 5 0 =
      Except.ok ⟨⟨Exchange.BINANCE, 5, 5, 0, 1⟩, [], 0⟩ :=
  C7_single_success_no_alternatives [clientA] 5 0
    ⟨Exchange.BINANCE, 5, 5, 0, 1⟩ (by
      norm_num [validPaths, evaluate_exchange, clientA, List.filterMap])

/-- A client whose rate call fails, for instantiating the
failure-tolerance theorems. -/
def failingClient : ExchangeClientBase where
  EXCHANGE := Exchange.LUNO
  get_zar_usdc_rate := Except.error ()
  calculate_fee := fun _ => Except.ok 0

/-- C3: a provider whose evaluation fails (its rate or fee call raised)
contributes no path — every path of the returned result comes from a
different, successfully evaluating provider — and, as long as some other
provider succeeds, `find_best_path` still returns a result instead of
aborting.  (In `_evaluate_exchange` the failure is caught by the
per-provider handler and turned into `none`, never re-raised.) -/
theorem C3_provider_failure_is_isolated
    (clients : List ExchangeClientBase) (zar_amount timestamp : ℚ)
    (c : ExchangeClientBase) (_hc : c ∈ clients)
    (hfail : evaluate_exchange c zar_amount = none)
    (c' : ExchangeClientBase) (hc' : c' ∈ clients)
    (hsucc : evaluate_exchange c' zar_amount ≠ none) :
    ∃ r, find_best_path clients zar_amount timestamp = Except.ok r ∧
      ∀ p ∈ r.optimal_path :: r.alternative_paths,
        ∃ cs, cs ∈ clients ∧ cs ≠ c ∧
          evaluate_exchange cs zar_amount = some p := by
  obtain ⟨r, hr, hlist⟩ := exists_ok_of_evaluate_some timestamp hc' hsucc
  refine ⟨r, hr, ?_⟩
  intro p hp
  have hmem : p ∈ validPaths clients zar_amount := by
    rw [hlist] at hp
    exact (sortDesc_perm _).subset hp
  obtain ⟨cs, hcs, hev⟩ := mem_validPaths.mp hmem
  refine ⟨cs, hcs, ?_, hev⟩
  intro heq
  rw [heq, hfail] at hev
  exact Option.noConfusion hev

/-- Witness for C3: `failingClient` fails, `clientA` succeeds, the call
still returns a result and no returned path is the failing provider's. -/
theorem C3_witness :
    ∃ r, find_best_path [failingClient, clientA] 5 0 = Except.ok r ∧
      ∀ p ∈ r.optimal_path :: r.alternative_paths,
        ∃ cs, cs ∈ [failingClient, clientA] ∧ cs ≠ failingClient ∧
          evaluate_exchange cs 5 = some p :=
  C3_provider_failure_is_isolated [failingClient, clientA] 5 0
    failingClient (by simp) rfl
    clientA (by simp) (by simp [evaluate_exchange, clientA])

/-- C4: the returned ordering is a deterministic function of the
registration-ordered valid paths — `optimal_path :: alternative_paths`
is exactly `sortDesc` of them — it is descending on `usdc_received`, and
the sort is stable: for every key value the paths carrying it stay in
the order their providers were registered in. -/
theorem C4_deterministic_stable_ordering
    (clients : List ExchangeClientBase) (zar_amount timestamp : ℚ)
    (r : ConversionResult)
    (h : find_best_path clients zar_amount timestamp = Except.ok r) :
    r.optimal_path :: r.alternative_paths =
        sortDesc (validPaths clients zar_amount) ∧
      (r.optimal_path :: r.alternative_paths).Pairwise
          (fun p q => q.usdc_received ≤ p.usdc_received) ∧
      ∀ k : ℚ,
        (r.optimal_path :: r.alternative_paths).filter
            (fun p => decide (p.usdc_received = k)) =
          (validPaths clients zar_amount).filter
            (fun p => decide (p.usdc_received = k)) := by
  obtain ⟨hlist, -⟩ := find_best_path_ok_iff.mp h
  refine ⟨hlist, hlist ▸ sortDesc_pairwise _, ?_⟩
  intro k
  rw [hlist]
  exact sortDesc_filter _ k

/-- A second always-succeeding client with the same rate and fee as
`clientA` but a different venue, to exercise the tie-break. -/
def clientTie : ExchangeClientBase where
  EXCHANGE := Exchange.LUNO
  get_zar_usdc_rate := Except.ok 1
  calculate_fee := fun _ => Except.ok 0

/-- The result of `find_best_path [clientA, clientTie] 5 0`: both paths
have `usdc_received = 5`, and the first-registered client wins the tie. -/
def resultTie : ConversionResult where
  optimal_path := { exchange := Exchange.BINANCE, zar_amount := 5
                    usdc_received := 5, fee := 0, rate := 1 }
  alternative_paths := [{ exchange := Exchange.LUNO, zar_amount := 5
                          usdc_received := 5, fee := 0, rate := 1 }]
  timestamp := 0

/-- Witness for C4 at a genuine tie: two providers with equal output,
first-registered first. -/
theorem C4_witness :
    resultTie.optimal_path :: resultTie.alternative_paths =
        sortDesc (validPaths [clientA, clientTie] 5) ∧
      (resultTie.optimal_path :: resultTie.alternative_paths).Pairwise
          (fun p q => q.usdc_received ≤ p.usdc_received) ∧
      ∀ k : ℚ,
        (resultTie.optimal_path :: resultTie.alternative_paths).filter
            (fun p => decide (p.usdc_received = k)) =
          (validPaths [clientA, clientTie] 5).filter
            (fun p => decide (p.usdc_received = k)) :=
  C4_deterministic_stable_ordering [clientA, clientTie] 5 0 resultTie (by
    norm_num [find_best_path, validPaths, evaluate_exchange, sortDesc,
      insertDesc, clientA, clientTie, resultTie, List.filterMap, List.foldr])

/-- A client whose rate call succeeds with 0, for the division-by-zero
claim. -/
def zeroRateClient : ExchangeClientBase where
  EXCHANGE := Exchange.BYBIT
  get_zar_usdc_rate := Except.ok 0
  calculate_fee := fun _ => Except.ok 1

/-- C8: a provider whose rate call succeeds but returns 0 hits the
`rate = 0` branch of `evaluate_exchange` — the `ZeroDivisionError` of
the source, caught by the same per-provider handler — so it is excluded
(`none`), and `find_best_path` still returns a result whenever any
provider succeeds, never propagating a division error. -/
theorem C8_zero_rate_division_caught
    (client : ExchangeClientBase) (zar_amount fee : ℚ)
    (hr : client.get_zar_usdc_rate = Except.ok 0)
    (hf : client.calculate_fee zar_amount = Except.ok fee) :
    evaluate_exchange client zar_amount = none ∧
      ∀ clients timestamp, client ∈ clients →
        ∀ c' ∈ clients, evaluate_exchange c' zar_amount ≠ none →
          ∃ r, find_best_path clients zar_amount timestamp =
            Except.ok r := by
  constructor
  · unfold evaluate_exchange
    rw [hr, hf]
    exact if_pos rfl
  · intro clients timestamp hmem c' hc' hsucc
    obtain ⟨r, hrr, -⟩ := exists_ok_of_evaluate_some timestamp hc' hsucc
    exact ⟨r, hrr⟩

/-- Witness for C8: `zeroRateClient` at amount 5. -/
theorem C8_witness :
    evaluate_exchange zeroRateClient 5 = none ∧
      ∀ clients timestamp, zeroRateClient ∈ clients →
        ∀ c' ∈ clients, evaluate_exchange c' 5 ≠ none →
          ∃ r, find_best_path clients 5 timestamp = Except.ok r :=
  C8_zero_rate_division_caught zeroRateClient 5 1 rfl rfl

/-- Provider A of the spec's worked scenario (rate 1.0, fee 0.0), put on
the first venue identity. -/
def providerA : ExchangeClientBase where
  EXCHANGE := Exchange.BINANCE
  get_zar_usdc_rate := Except.ok 1
  calculate_fee := fun _ => Except.ok 0

/-- Provider B of the spec's worked scenario (rate 2.0, fee 100.0), put
on the second venue identity. -/
def providerB : ExchangeClientBase where
  EXCHANGE := Exchange.LUNO
  get_zar_usdc_rate := Except.ok 2
  calculate_fee := fun _ => Except.ok 100

/-- Provider C of the spec's worked scenario (rate 1.5, fee 30.0), put
on the third venue identity. -/
def providerC : ExchangeClientBase where
  EXCHANGE := Exchange.BYBIT
  get_zar_usdc_rate := Except.ok (3/2)
  calculate_fee := fun _ => Except.ok 30

/-- C6: the spec's worked scenario at amount 10000 — optimal is provider
A with output 10000, alternatives are [C, B] in that order, with exact
outputs 19940/3 (the spec's 6646.67, equal to it within a cent) and
4950. -/
theorem C6_worked_scenario :
    find_best_path [providerA, providerB, providerC] 10000 0 =
      Except.ok ⟨⟨Exchange.BINANCE, 10000, 10000, 0, 1⟩,
        [⟨Exchange.BYBIT, 10000, 19940/3, 30, 3/2⟩,
         ⟨Exchange.LUNO, 10000, 4950, 100, 2⟩], 0⟩ ∧
      |(19940/3 : ℚ) - 6646.67| < 1/100 := by
  constructor
  · norm_num [find_best_path, validPaths, evaluate_exchange, sortDesc,
      insertDesc, providerA, providerB, providerC, List.filterMap,
      List.foldr]
  · rw [abs_sub_lt_iff]
    norm_num

/-- The path `BinanceClient` produces at a given amount. -/
def binancePath (zar_amount : ℚ) : ConversionPath where
  exchange := Exchange.BINANCE
  zar_amount := zar_amount
  usdc_received := (zar_amount - zar_amount * (1/1000)) / (37/2)
  fee := zar_amount * (1/1000)
  rate := 37/2

/-- The path `LunoClient` produces at a given amount. -/
def lunoPath (zar_amount : ℚ) : ConversionPath where
  exchange := Exchange.LUNO
  zar_amount := zar_amount
  usdc_received := (zar_amount - zar_amount * (1/200)) / (187/10)
  fee := zar_amount * (1/200)
  rate := 187/10

/-- The path `BybitClient` produces at a given amount. -/
def bybitPath (zar_amount : ℚ) : ConversionPath where
  exchange := Exchange.BYBIT
  zar_amount := zar_amount
  usdc_received := (zar_amount - zar_amount * (3/1000)) / (93/5)
  fee := zar_amount * (3/1000)
  rate := 93/5

/-- With the default clients every evaluation succeeds, at every amount,
yielding the three paths in registration order. -/
lemma validPaths_default (zar_amount : ℚ) :
    validPaths default_clients zar_amount =
      [binancePath zar_amount, lunoPath zar_amount, bybitPath zar_amount] := by
  norm_num [validPaths, evaluate_exchange, default_clients, BinanceClient,
    LunoClient, BybitClient, binancePath, lunoPath, bybitPath,
    List.filterMap]

/-- C9: with the three built-in clients and any strictly positive
amount, Binance is optimal and the alternatives are [Bybit, Luno],
because the after-fee rates satisfy 0.999/18.5 > 0.997/18.6 >
0.995/18.7. -/
theorem C9_default_clients_ranking (zar_amount timestamp : ℚ)
    (hpos : 0 < zar_amount) :
    ∃ r, find_best_path default_clients zar_amount timestamp =
        Except.ok r ∧
      r.optimal_path.exchange = Exchange.BINANCE ∧
      r.alternative_paths.map ConversionPath.exchange =
        [Exchange.BYBIT, Exchange.LUNO] := by
  have eB : (zar_amount - zar_amount * (1/1000)) / ((37:ℚ)/2) =
      zar_amount * (999/18500) := by ring
  have eL : (zar_amount - zar_amount * (1/200)) / ((187:ℚ)/10) =
      zar_amount * (199/3740) := by ring
  have eY : (zar_amount - zar_amount * (3/1000)) / ((93:ℚ)/5) =
      zar_amount * (997/18600) := by ring
  have hLY : ¬ ((bybitPath zar_amount).usdc_received ≤
      (lunoPath zar_amount).usdc_received) := by
    show ¬ ((zar_amount - zar_amount * (3/1000)) / ((93:ℚ)/5) ≤
      (zar_amount - zar_amount * (1/200)) / ((187:ℚ)/10))
    rw [eY, eL, not_le]
    exact mul_lt_mul_of_pos_left (by norm_num) hpos
  have hYB : (bybitPath zar_amount).usdc_received ≤
      (binancePath zar_amount).usdc_received := by
    show (zar_amount - zar_amount * (3/1000)) / ((93:ℚ)/5) ≤
      (zar_amount - zar_amount * (1/1000)) / ((37:ℚ)/2)
    rw [eY, eB]
    exact le_of_lt (mul_lt_mul_of_pos_left (by norm_num) hpos)
  have hs : sortDesc (validPaths default_clients zar_amount) =
      [binancePath zar_amount, bybitPath zar_amount, lunoPath zar_amount] := by
    rw [validPaths_default]
    simp only [sortDesc, List.foldr]
    rw [insertDesc_nil, insertDesc_cons_gt _ _ _ hLY, insertDesc_nil,
      insertDesc_cons_le _ _ _ hYB]
  refine ⟨⟨binancePath zar_amount,
    [bybitPath zar_amount, lunoPath zar_amount], timestamp⟩, ?_, rfl, rfl⟩
  unfold find_best_path
  rw [hs]

/-- Witness for C9: the positive amount 10000. -/
theorem C9_witness :
    ∃ r, find_best_path default_clients 10000 0 = Except.ok r ∧
      r.optimal_path.exchange = Exchange.BINANCE ∧
      r.alternative_paths.map ConversionPath.exchange =
        [Exchange.BYBIT, Exchange.LUNO] :=
  C9_default_clients_ranking 10000 0 (by norm_num)

/-- C10: `find_best_path` has no positivity precondition — with the
default clients it returns a result at every amount, zero and negative
included — and the data-model invariants are not enforced at
construction: at amount −100 the returned optimal path carries a
negative `usdc_received` and a negative `fee`. -/
theorem C10_no_positivity_precondition (zar_amount timestamp : ℚ) :
    (∃ r, find_best_path default_clients zar_amount timestamp =
        Except.ok r) ∧
      ∃ r, find_best_path default_clients (-100) 0 = Except.ok r ∧
        r.optimal_path.usdc_received < 0 ∧ r.optimal_path.fee < 0 := by
  constructor
  · have hmem : BinanceClient ∈ default_clients := by
      simp [default_clients]
    have hsucc : evaluate_exchange BinanceClient zar_amount ≠ none := by
      simp [evaluate_exchange, BinanceClient]
      norm_num
    obtain ⟨r, hr, -⟩ := exists_ok_of_evaluate_some timestamp hmem hsucc
    exact ⟨r, hr⟩
  · refine ⟨⟨⟨Exchange.LUNO, -100, -995/187, -1/2, 187/10⟩,
      [⟨Exchange.BYBIT, -100, -997/186, -3/10, 93/5⟩,
       ⟨Exchange.BINANCE, -100, -27/5, -1/10, 37/2⟩], 0⟩, ?_, by norm_num,
      by norm_num⟩
    norm_num [find_best_path, validPaths, evaluate_exchange, sortDesc,
      insertDesc, default_clients, BinanceClient, LunoClient, BybitClient,
      List.filterMap, List.foldr]

end ArcZardian
